import Mathlib

/-!
Verification of the Answer Resolution Engine of `create-adapter`
(`src/lib/questions.ts`): the question graph, condition evaluation,
completeness checking (`checkAnswers`), the validation pipeline
(`validateAnswers`), the transformation pipeline (`formatAnswers`),
the migration inference callbacks of selected questions, and
`getDefaultAnswer`.

Modelling decisions:
* JavaScript answer values (`string | boolean | number`, or arrays
  thereof) become the inductive types `AnswerValue` and `Answer`.
* An answer set (`Partial<Answers>` / `Record<string, any>`) becomes a
  total function `String → Option Answer`; a key that is absent or holds
  `undefined` is `none` (the source only ever distinguishes answers via
  `== undefined` / `!= undefined`, so the two JavaScript states are
  observationally identical here).
* Thrown `Error`s become `Except` results; `async` callbacks are pure
  functions (each `await` in the source resolves fully before the next
  question is considered, so the promise structure is invisible to the
  properties proved here).
* `testCondition` (imported by `questions.ts` from `createAdapter.ts`,
  which is not part of the sources under verification) and the
  `MigrationContext` interface are modelled from the specification of
  their boundary behaviour; everything else is translated directly from
  `src/lib/questions.ts`.
-/

/-- A scalar answer value: `string | boolean | number`. -/
inductive AnswerValue where
  | str (s : String)
  | boolean (b : Bool)
  | num (n : Int)
deriving DecidableEq

/-- An answer: a scalar or an array of scalars (`AnswerValue | AnswerValue[]`). -/
inductive Answer where
  | val (v : AnswerValue)
  | arr (vs : List AnswerValue)
deriving DecidableEq

/-- An answer set: a partial mapping from question names to answers.
`none` models an absent (or `undefined`) answer. -/
abbrev AnswerSet := String → Option Answer

/-- The payload of a `{ name, value }` condition: a single scalar or an
array of scalars (`value: AnswerValue | AnswerValue[]`). -/
inductive ValuePayload where
  | one (v : AnswerValue)
  | many (vs : List AnswerValue)
deriving DecidableEq

/-- An atomic condition (`Condition` in `questions.ts`): it names another
answer and tests it by exact value, array membership, or array
non-membership. -/
inductive Condition where
  | value (name : String) (payload : ValuePayload)
  | contains (name : String) (x : AnswerValue)
  | doesNotContain (name : String) (x : AnswerValue)
deriving DecidableEq

/-- A question's `condition` field holds either a single condition or a
list of conditions (`Condition | Condition[]`); a list is a conjunction. -/
inductive CondClause where
  | single (c : Condition)
  | many (cs : List Condition)
deriving DecidableEq

/-- Modelled from the spec: evaluation of one atomic condition
(`testCondition` lives in `createAdapter.ts`, which is outside the
verified sources). `{name, value}` is true iff the referenced answer is a
scalar strictly equal to the payload (or to one of its elements when the
payload is an array); `{name, contains}` is true iff the referenced
answer is an array containing the element; `{name, doesNotContain}` is
true iff the referenced answer is absent, not an array, or an array not
containing the element. A missing referenced answer therefore fails
`value`/`contains` and passes `doesNotContain`. Evaluation is total by
construction. -/
def evalCondition (c : Condition) (answers : AnswerSet) : Bool :=
  match c with
  | .value n payload =>
    match answers n with
    | some (.val a) =>
      match payload with
      | .one v => a == v
      | .many vs => vs.contains a
    | _ => false
  | .contains n x =>
    match answers n with
    | some (.arr vs) => vs.contains x
    | _ => false
  | .doesNotContain n x =>
    match answers n with
    | some (.arr vs) => !vs.contains x
    | _ => true

/-- Modelled from the spec: evaluation of a question's `condition` field.
No condition means true; a list of conditions is an implicit AND. -/
def testCondition (cond : Option CondClause) (answers : AnswerSet) : Bool :=
  match cond with
  | none => true
  | some (.single c) => evalCondition c answers
  | some (.many cs) => cs.all (fun c => evalCondition c answers)

/-- Modelled from the spec: the result of a question's validator
(`CheckResult` from `actionsAndTransformers.ts`, outside the verified
sources): an error string on failure, a non-string on success. Only
string-ness is ever inspected (`typeof testResult === "string"`). -/
inductive CheckResult where
  | passed
  | failed (message : String)

/-- One question record. Only the structural fields read by the engine are
kept: `name`, `condition`, `optional`, `expert` and the question `type`
tag. The validator (`action`), transform (`resultTransform`) and
migration (`migrate`) callbacks of the concrete questions are implemented
in `actionsAndTransformers.ts` / as closures over `MigrationContext`,
outside the verified sources; the pipeline functions below take them as
explicit fields, left `none` in the concrete graph, and theorems about
the pipelines quantify over arbitrary question lists. Presentation-only
fields (`message`, `hint`, `initial`, `choices`, styling) are omitted. -/
structure Question where
  name : String
  type : String := ""
  condition : Option CondClause := none
  optional : Bool := false
  expert : Bool := false
  action : Option (Option Answer → CheckResult) := none
  resultTransform : Option (Answer → Option Answer) := none

/-- An entry of `questionsAndText`: display text, a conditional title
function, or a question group (all questions of this graph sit inside
groups). Display strings are abridged; only the entry kind matters to
`questions`. -/
inductive QEntry where
  | text (s : String)
  | conditionalTitle
  | group (headline : String) (qs : List Question)

/-- Shorthand for the recurring `{ name: "features", contains: "adapter" }`
condition. -/
def featuresHasAdapter : CondClause :=
  .single (.contains "features" (.str "adapter"))

/-- The question graph with its surrounding text entries
(`questionsAndText` in `questions.ts`), in declaration order. -/
def questionsAndText : List QEntry := [
  .text "",
  .text "(banner rule)",
  .text "   Welcome to the ioBroker adapter creator!",
  .text "(banner rule)",
  .text "",
  .text "You can cancel at any point by pressing Ctrl+C.",
  .conditionalTitle,
  .conditionalTitle,
  .group "Lets get started with a few questions about your project!" [
    { name := "adapterName", type := "input" },
    { name := "title", type := "input" },
    { name := "description", type := "input", optional := true },
    { name := "keywords", type := "input", optional := true },
    { name := "contributors", type := "input", optional := true },
    { name := "icon", type := "web_upload", optional := true,
      condition := some (.single (.value "cli" (.one (.boolean false)))) }
  ],
  .group "Nice! Lets get technical..." [
    { name := "expert", type := "select", optional := true },
    { name := "features", type := "multiselect" },
    { name := "adminFeatures", type := "multiselect", expert := true,
      condition := some featuresHasAdapter },
    { name := "type", type := "select",
      condition := some featuresHasAdapter },
    { name := "type", type := "select",
      condition := some (.single (.doesNotContain "features" (.str "adapter"))) },
    { name := "startMode", type := "select", expert := true,
      condition := some featuresHasAdapter },
    { name := "scheduleStartOnChange", type := "select", expert := true,
      condition := some (.single (.value "startMode" (.one (.str "schedule")))) },
    { name := "connectionType", type := "select", optional := true,
      condition := some featuresHasAdapter },
    { name := "dataSource", type := "select", optional := true,
      condition := some featuresHasAdapter },
    { name := "connectionIndicator", type := "select", expert := true,
      condition := some featuresHasAdapter },
    { name := "adapterSettings", type := "web_unknown", optional := true,
      condition := some (.many [.contains "features" (.str "adapter"),
                                .value "cli" (.one (.boolean false))]) },
    { name := "language", type := "select",
      condition := some featuresHasAdapter },
    { name := "adminReact", type := "select",
      condition := some (.many [.contains "features" (.str "adapter")]) },
    { name := "tabReact", type := "select",
      condition := some (.many [.contains "adminFeatures" (.str "tab")]) },
    { name := "tools", type := "multiselect",
      condition := some (.single (.value "language" (.one (.str "JavaScript")))) },
    { name := "tools", type := "multiselect",
      condition := some (.single (.value "language" (.one (.str "TypeScript")))) },
    { name := "indentation", type := "select",
      condition := some featuresHasAdapter },
    { name := "quotes", type := "select",
      condition := some featuresHasAdapter },
    { name := "es6class", type := "select", expert := true,
      condition := some featuresHasAdapter }
  ],
  .group "Almost done! Just a few administrative details..." [
    { name := "authorName", type := "input" },
    { name := "authorGithub", type := "input" },
    { name := "authorEmail", type := "input" },
    { name := "gitRemoteProtocol", type := "select", expert := true },
    { name := "gitCommit", type := "select", expert := true,
      condition := some (.single (.value "cli" (.one (.boolean true)))) },
    { name := "license", type := "select" },
    { name := "ci", type := "select", expert := true },
    { name := "dependabot", type := "select", expert := true }
  ],
  .text "",
  .text "That is it. Please wait a minute while I get this working..."
]

/-- Only the questions: text and conditional-title entries are filtered
out and question groups are flattened, preserving declaration order. -/
def questions : List Question :=
  (questionsAndText.filterMap fun e =>
    match e with
    | .text _ => none
    | .conditionalTitle => none
    | .group _ qs => some qs).flatten

/-- An error raised by `checkAnswers`. -/
inductive CheckError where
  | missing (name : String)
  | extraneous (name : String)
deriving DecidableEq

/-- The exact message carried by the thrown `Error`. -/
def renderCheckError : CheckError → String
  | .missing n => "Missing answer \"" ++ n ++ "\"!"
  | .extraneous n => "Extraneous answer \"" ++ n ++ "\" given!"

/-- The loop body of `checkAnswers`: walks the given tail of the question
list; the multi-branch filter inside always runs over the full global
`questions` list, exactly as in the source. -/
def checkAnswersLoop (answers : AnswerSet) : List Question → Except CheckError Unit
  | [] => .ok ()
  | q :: rest =>
    let answer := answers q.name
    let conditionFulfilled := testCondition q.condition answers
    if !q.optional && conditionFulfilled && answer.isNone then
      -- A required answer was not given
      .error (.missing q.name)
    else if !conditionFulfilled && !answer.isNone then
      if (questions.filter fun qq => qq.name == q.name).length > 0 then
        -- the source skips the check when this filter is non-empty
        checkAnswersLoop answers rest
      else
        -- An extraneous answer was given
        .error (.extraneous q.name)
    else
      checkAnswersLoop answers rest

/-- `checkAnswers(answers)`: completeness check over the whole graph. -/
def checkAnswers (answers : AnswerSet) : Except CheckError Unit :=
  checkAnswersLoop answers questions

/-- The loop body of `validateAnswers`, parametrised by the question list
(the source iterates the module-level `questions`, whose validator
implementations live outside the verified sources). -/
def validateAnswersLoop (answers : AnswerSet) (disableValidation : List String) :
    List Question → Except String Unit
  | [] => .ok ()
  | q :: rest =>
    if !testCondition q.condition answers then
      validateAnswersLoop answers disableValidation rest
    else
      match q.action with
      | none => validateAnswersLoop answers disableValidation rest
      | some act =>
        if disableValidation.contains q.name then
          validateAnswersLoop answers disableValidation rest
        else
          match act (answers q.name) with
          | .failed msg => .error msg
          | .passed => validateAnswersLoop answers disableValidation rest

/-- `validateAnswers(answers, disableValidation)` over a question list. -/
def validateAnswers (qs : List Question) (answers : AnswerSet)
    (disableValidation : List String) : Except String Unit :=
  validateAnswersLoop answers disableValidation qs

/-- Overwrite (or erase, when `v = none`) one slot of an answer set;
models `answers[name] = v`. -/
def setAnswer (answers : AnswerSet) (name : String) (v : Option Answer) : AnswerSet :=
  fun m => if m = name then v else answers m

/-- The loop body of `formatAnswers`: the answer set is threaded through
because the source mutates `answers` in place while iterating. -/
def formatAnswersLoop : AnswerSet → List Question → AnswerSet
  | answers, [] => answers
  | answers, q :: rest =>
    if !testCondition q.condition answers then
      formatAnswersLoop answers rest
    else
      match answers q.name, q.resultTransform with
      | some v, some tf => formatAnswersLoop (setAnswer answers q.name (tf v)) rest
      | _, _ => formatAnswersLoop answers rest

/-- `formatAnswers(answers)` over a question list: applies each
`resultTransform` in declaration order and returns the answer set. -/
def formatAnswers (qs : List Question) (answers : AnswerSet) : AnswerSet :=
  formatAnswersLoop answers qs

/-- One step of the transformation pipeline, written after the
specification's words: when the question's condition holds against the
current answer set and a defined answer and a transform both exist, the
answer is replaced with the transformed value; otherwise the set is
unchanged. -/
def formatStep (answers : AnswerSet) (q : Question) : AnswerSet :=
  if testCondition q.condition answers then
    match answers q.name, q.resultTransform with
    | some v, some tf => setAnswer answers q.name (tf v)
    | _, _ => answers
  else answers

/-- The first validation error, written after the specification's words:
the first question (in declaration order) that is active, carries a
validator, is not disabled, and whose validator fails, yields its
message. -/
def questionError (answers : AnswerSet) (disableValidation : List String)
    (q : Question) : Option String :=
  if testCondition q.condition answers then
    match q.action with
    | none => none
    | some act =>
      if disableValidation.contains q.name then none
      else
        match act (answers q.name) with
        | .failed msg => some msg
        | .passed => none
  else none

/-- Specification-level description of `validateAnswers`: fail with the
first validation error in declaration order, succeed when there is none. -/
def validateSpec (qs : List Question) (answers : AnswerSet)
    (disableValidation : List String) : Except String Unit :=
  match qs.findSome? (questionError answers disableValidation) with
  | some msg => .error msg
  | none => .ok ()

/-- State-threaded rendition of the `checkAnswers` loop: the answer set is
passed along explicitly, mirroring the mutable `answers` object statement
by statement (the loop only ever reads it), and returned together with
the outcome. -/
def checkAnswersLoopS (answers : AnswerSet) :
    List Question → Except CheckError Unit × AnswerSet
  | [] => (.ok (), answers)
  | q :: rest =>
    let answer := answers q.name
    let conditionFulfilled := testCondition q.condition answers
    if !q.optional && conditionFulfilled && answer.isNone then
      (.error (.missing q.name), answers)
    else if !conditionFulfilled && !answer.isNone then
      if (questions.filter fun qq => qq.name == q.name).length > 0 then
        checkAnswersLoopS answers rest
      else
        (.error (.extraneous q.name), answers)
    else
      checkAnswersLoopS answers rest

/-- State-threaded `checkAnswers`. -/
def checkAnswersS (answers : AnswerSet) : Except CheckError Unit × AnswerSet :=
  checkAnswersLoopS answers questions

/-- State-threaded rendition of the `validateAnswers` loop. -/
def validateAnswersLoopS (answers : AnswerSet) (disableValidation : List String) :
    List Question → Except String Unit × AnswerSet
  | [] => (.ok (), answers)
  | q :: rest =>
    if !testCondition q.condition answers then
      validateAnswersLoopS answers disableValidation rest
    else
      match q.action with
      | none => validateAnswersLoopS answers disableValidation rest
      | some act =>
        if disableValidation.contains q.name then
          validateAnswersLoopS answers disableValidation rest
        else
          match act (answers q.name) with
          | .failed msg => (.error msg, answers)
          | .passed => validateAnswersLoopS answers disableValidation rest

/-- State-threaded `validateAnswers`. -/
def validateAnswersS (qs : List Question) (answers : AnswerSet)
    (disableValidation : List String) : Except String Unit × AnswerSet :=
  validateAnswersLoopS answers disableValidation qs

/-- One entry of `ioPackageJson.instanceObjects`; only `_id` is read. -/
structure InstanceObject where
  _id : String
deriving DecidableEq

/-- The adapter-specific manifest; only `instanceObjects` is needed by the
claims settled here (`none` models a manifest without that field). -/
structure IoPackageJson where
  instanceObjects : Option (List InstanceObject) := none

/-- Modelled from the spec: the `MigrationContext` boundary interface
(`migrationContext.ts` is outside the verified sources). Only the members
read by the migration callbacks embedded below are kept:
`hasFilesWithExtension(dir, ext, filter)`, the entry-point file's textual
content (`getMainFileContent()`), and the parsed adapter manifest. -/
structure MigrationContext where
  hasFilesWithExtension : String → String → (String → Bool) → Bool
  getMainFileContent : String
  ioPackageJson : IoPackageJson

/-- The `migrate` callback of the `language` question:
`TypeScript` iff `src` has `.ts` files that are not `.d.ts` files. -/
def languageMigrate (ctx : MigrationContext) : String :=
  if ctx.hasFilesWithExtension "src" ".ts" (fun f => !f.endsWith ".d.ts")
  then "TypeScript" else "JavaScript"

/-- The multiline regular expression test of the `es6class` callback:
`/^[ \t]*class/gm` matches iff some line starts, after spaces and tabs,
with `class`. -/
def hasClassLine (content : String) : Bool :=
  (content.splitOn "\n").any fun line =>
    (line.dropWhile fun c => c == ' ' || c == '\t').startsWith "class"

/-- The `migrate` callback of the `es6class` question: `yes` iff the main
file matches `/^[ \t]*class/gm`. -/
def es6classMigrate (ctx : MigrationContext) : String :=
  if hasClassLine ctx.getMainFileContent then "yes" else "no"

/-- The `migrate` callback of the `connectionIndicator` question: `yes`
iff `ioPackageJson.instanceObjects` has an entry whose `_id` is
`info.connection` (an absent `instanceObjects` field yields `no`, via the
optional-chaining `?.some(...)`). -/
def connectionIndicatorMigrate (ctx : MigrationContext) : String :=
  if (ctx.ioPackageJson.instanceObjects.getD []).any
      (fun o => o._id == "info.connection")
  then "yes" else "no"

/-- The input kind of a custom adapter setting. -/
inductive InputType where
  | text
  | number
  | checkbox
  | select
deriving DecidableEq

/-- One entry of the `adapterSettings` answer. -/
structure AdapterSettingsEntry where
  key : String
  defaultValue : Option AnswerValue := none
  inputType : InputType
  options : List (String × String) := []
deriving DecidableEq

/-- A value produced by `getDefaultAnswer`: either the structured
`adapterSettings` list or a plain string list. -/
inductive DefaultAnswer where
  | settings (entries : List AdapterSettingsEntry)
  | strList (ss : List String)
deriving DecidableEq

/-- `getDefaultAnswer(key)`: static defaults for exactly the keys handled
by the source's `if`/`else if` chain. -/
def getDefaultAnswer (key : String) : Option DefaultAnswer :=
  if key = "adapterSettings" then
    some (.settings [
      { key := "option1", defaultValue := some (.boolean true),
        inputType := .checkbox },
      { key := "option2", defaultValue := some (.str "42"),
        inputType := .text }])
  else if key = "keywords" then
    some (.strList ["ioBroker", "template", "Smart Home", "home automation"])
  else
    none

/-- A complete answer set for a visualization-only project (`features =
["vis"]`) that additionally carries a defined `es6class` answer although
the `es6class` question's condition is false. -/
def visWithEs6classAnswers : AnswerSet := fun n =>
  if n = "adapterName" then some (.val (.str "testadapter"))
  else if n = "title" then some (.val (.str "Test Adapter"))
  else if n = "features" then some (.arr [.str "vis"])
  else if n = "type" then some (.val (.str "visualization-icons"))
  else if n = "authorName" then some (.val (.str "Alice"))
  else if n = "authorGithub" then some (.val (.str "alice"))
  else if n = "authorEmail" then some (.val (.str "alice@example.com"))
  else if n = "gitRemoteProtocol" then some (.val (.str "HTTPS"))
  else if n = "license" then some (.val (.str "MIT License"))
  else if n = "ci" then some (.val (.str "gh-actions"))
  else if n = "dependabot" then some (.val (.str "no"))
  else if n = "es6class" then some (.val (.str "yes"))
  else none

/-- An answer set that selects the `adapter` feature but omits `title`
(and answers the sole question preceding `title`). -/
def omitTitleAnswers : AnswerSet := fun n =>
  if n = "adapterName" then some (.val (.str "testadapter"))
  else if n = "features" then some (.arr [.str "adapter"])
  else none

/-- An answer set holding only a `type` answer: the adapter-feature
`type` branch's condition is false against it. -/
def typeOnlyAnswers : AnswerSet := fun n =>
  if n = "type" then some (.val (.str "alarm")) else none

/-- An answer set selecting the `adapter` feature, used to instantiate
the branch-exclusivity theorem. -/
def adapterFeatureAnswers : AnswerSet := fun n =>
  if n = "features" then some (.arr [.str "adapter"]) else none

/-- The empty answer set. -/
def emptyAnswers : AnswerSet := fun _ => none

/-- A missing-answer violation: the question is active (condition true),
not optional, and unanswered. -/
def MissingViolation (answers : AnswerSet) (q : Question) : Prop :=
  q.optional = false ∧ testCondition q.condition answers = true
    ∧ answers q.name = none

instance (answers : AnswerSet) (q : Question) :
    Decidable (MissingViolation answers q) := by
  unfold MissingViolation
  infer_instance

theorem missingViolation_iff (answers : AnswerSet) (q : Question) :
    (!q.optional && (testCondition q.condition answers
      && (answers q.name).isNone)) = true ↔ MissingViolation answers q := by
  simp [MissingViolation, Bool.and_eq_true, Bool.not_eq_true',
    Option.isNone_iff_eq_none, and_assoc]

theorem self_mem_name_filter (q : Question) (hq : q ∈ questions) :
    0 < (questions.filter fun qq => qq.name == q.name).length := by
  apply List.length_pos_of_mem (a := q)
  exact List.mem_filter.mpr ⟨hq, by simp⟩

theorem checkAnswersLoop_error (answers : AnswerSet) :
    ∀ qs : List Question, (∀ q ∈ qs, q ∈ questions) →
    ∀ e, checkAnswersLoop answers qs = .error e →
    ∃ q ∈ qs, e = .missing q.name ∧ MissingViolation answers q := by
  intro qs
  induction qs with
  | nil => intro _ e h; simp [checkAnswersLoop] at h
  | cons q rest ih =>
    intro hsub e h
    have hsub' : ∀ q' ∈ rest, q' ∈ questions :=
      fun q' hq' => hsub q' (List.mem_cons_of_mem _ hq')
    rw [checkAnswersLoop] at h
    split at h
    · rename_i hviol
      injection h with h'
      exact ⟨q, List.mem_cons_self .., h'.symm ▸ rfl,
        (missingViolation_iff answers q).mp (by
          simpa [Bool.and_assoc] using hviol)⟩
    · split at h
      · split at h
        · obtain ⟨q', hq', he, hv⟩ := ih hsub' e h
          exact ⟨q', List.mem_cons_of_mem _ hq', he, hv⟩
        · rename_i hlen
          exact absurd (self_mem_name_filter q (hsub q (List.mem_cons_self ..)))
            hlen
      · obtain ⟨q', hq', he, hv⟩ := ih hsub' e h
        exact ⟨q', List.mem_cons_of_mem _ hq', he, hv⟩

theorem checkAnswersLoop_ok_iff (answers : AnswerSet) :
    ∀ qs : List Question, (∀ q ∈ qs, q ∈ questions) →
    (checkAnswersLoop answers qs = .ok () ↔
      ∀ q ∈ qs, ¬MissingViolation answers q) := by
  intro qs
  induction qs with
  | nil => intro _; simp [checkAnswersLoop]
  | cons q rest ih =>
    intro hsub
    have hsub' : ∀ q' ∈ rest, q' ∈ questions :=
      fun q' hq' => hsub q' (List.mem_cons_of_mem _ hq')
    rw [checkAnswersLoop]
    split
    · rename_i hviol
      have hv : MissingViolation answers q :=
        (missingViolation_iff answers q).mp (by
          simpa [Bool.and_assoc] using hviol)
      constructor
      · intro h; cases h
      · intro h; exact absurd hv (h q (List.mem_cons_self ..))
    · rename_i hviol
      have hv : ¬MissingViolation answers q := fun hmv =>
        hviol (by
          simpa [Bool.and_assoc] using (missingViolation_iff answers q).mpr hmv)
      have hcons : (∀ q' ∈ q :: rest, ¬MissingViolation answers q') ↔
          (∀ q' ∈ rest, ¬MissingViolation answers q') := by
        constructor
        · exact fun h q' hq' => h q' (List.mem_cons_of_mem _ hq')
        · intro h q' hq'
          rcases List.mem_cons.mp hq' with he | hm
          · exact he ▸ hv
          · exact h q' hm
      rw [hcons]
      split
      · split
        · exact ih hsub'
        · rename_i hlen
          exact absurd (self_mem_name_filter q (hsub q (List.mem_cons_self ..)))
            hlen
      · exact ih hsub'

theorem contains_doesNotContain_exclusive (answers : AnswerSet) (n : String)
    (x : AnswerValue) :
    ¬(evalCondition (.contains n x) answers = true ∧
      evalCondition (.doesNotContain n x) answers = true) := by
  rintro ⟨h1, h2⟩
  cases hv : answers n with
  | none => simp [evalCondition, hv] at h1
  | some a =>
    cases a with
    | val v => simp [evalCondition, hv] at h1
    | arr vs =>
      simp [evalCondition, hv] at h1 h2
      exact h2 h1

theorem value_exclusive (answers : AnswerSet) (n : String) (v w : AnswerValue)
    (hvw : v ≠ w) :
    ¬(evalCondition (.value n (.one v)) answers = true ∧
      evalCondition (.value n (.one w)) answers = true) := by
  rintro ⟨h1, h2⟩
  cases hv : answers n with
  | none => simp [evalCondition, hv] at h1
  | some a =>
    cases a with
    | val a' =>
      simp [evalCondition, hv] at h1 h2
      exact hvw (h1.symm.trans h2)
    | arr vs => simp [evalCondition, hv] at h1

theorem question_name_clash : ∀ i j : Fin questions.length,
    i.val < j.val → (questions.get i).name = (questions.get j).name →
    (i.val = 9 ∧ j.val = 10) ∨ (i.val = 20 ∧ j.val = 21) := by decide

theorem nine_lt_len : 9 < questions.length := by decide

theorem ten_lt_len : 10 < questions.length := by decide

theorem twenty_lt_len : 20 < questions.length := by decide

theorem twentyone_lt_len : 21 < questions.length := by decide

/-- C7: for every answer set, at most one question record sharing a given
name has a true condition; the only shared names in the graph are `type`
(conditions `features contains "adapter"` vs. `features doesNotContain
"adapter"`) and `tools` (conditions `language = "JavaScript"` vs.
`language = "TypeScript"`), and neither pair can be simultaneously
active. -/
theorem branch_conditions_mutually_exclusive :
    ∀ (answers : AnswerSet) (i j : Fin questions.length),
    i.val < j.val → (questions.get i).name = (questions.get j).name →
    ¬(testCondition (questions.get i).condition answers = true ∧
      testCondition (questions.get j).condition answers = true) := by
  intro answers i j hlt hname hcontra
  rcases question_name_clash i j hlt hname with ⟨hi, hj⟩ | ⟨hi, hj⟩
  · have hi' : i = (⟨9, nine_lt_len⟩ : Fin questions.length) := Fin.ext hi
    have hj' : j = (⟨10, ten_lt_len⟩ : Fin questions.length) := Fin.ext hj
    rw [hi', hj'] at hcontra
    have h9 : testCondition (questions.get ⟨9, nine_lt_len⟩).condition answers
        = evalCondition (.contains "features" (.str "adapter")) answers := rfl
    have h10 : testCondition (questions.get ⟨10, ten_lt_len⟩).condition answers
        = evalCondition (.doesNotContain "features" (.str "adapter")) answers :=
      rfl
    rw [h9, h10] at hcontra
    exact contains_doesNotContain_exclusive answers "features" (.str "adapter")
      hcontra
  · have hi' : i = (⟨20, twenty_lt_len⟩ : Fin questions.length) := Fin.ext hi
    have hj' : j = (⟨21, twentyone_lt_len⟩ : Fin questions.length) := Fin.ext hj
    rw [hi', hj'] at hcontra
    have h20 : testCondition (questions.get ⟨20, twenty_lt_len⟩).condition answers
        = evalCondition (.value "language" (.one (.str "JavaScript"))) answers :=
      rfl
    have h21 : testCondition (questions.get ⟨21, twentyone_lt_len⟩).condition
        answers
        = evalCondition (.value "language" (.one (.str "TypeScript"))) answers :=
      rfl
    rw [h20, h21] at hcontra
    exact value_exclusive answers "language" (.str "JavaScript")
      (.str "TypeScript") (by decide) hcontra

/-- Witness for C7: the two `type` branches (indices 9 and 10) share their
name and are not simultaneously active against an answer set selecting
the `adapter` feature. -/
theorem branch_conditions_mutually_exclusive_witness :
    (9 : Nat) < 10
    ∧ (questions.get ⟨9, nine_lt_len⟩).name
        = (questions.get ⟨10, ten_lt_len⟩).name
    ∧ ¬(testCondition (questions.get ⟨9, nine_lt_len⟩).condition
          adapterFeatureAnswers = true
        ∧ testCondition (questions.get ⟨10, ten_lt_len⟩).condition
          adapterFeatureAnswers = true) :=
  ⟨by decide, rfl,
    branch_conditions_mutually_exclusive adapterFeatureAnswers
      ⟨9, nine_lt_len⟩ ⟨10, ten_lt_len⟩ (by decide) rfl⟩

/-- C1 (code bug): the extraneous-answer check never fires. Against
`visWithEs6classAnswers`, the single-branch question `es6class` has a
false condition and a defined answer — the claim (and the source's own
comment, which only wants to skip "questions with multiple branches")
requires `checkAnswers` to throw `Extraneous answer "es6class" given!` —
yet `checkAnswers` returns normally: the guarding filter
`questions.filter(qq => qq.name === q.name)` always contains `q` itself,
so its `length > 0` test always succeeds. -/
theorem checkAnswers_misses_extraneous_es6class :
    checkAnswers visWithEs6classAnswers = .ok ()
    ∧ (questions.filter fun q => q.name == "es6class").length = 1
    ∧ questions.any (fun q => q.name == "es6class"
        && !testCondition q.condition visWithEs6classAnswers
        && !(visWithEs6classAnswers q.name).isNone) = true :=
  ⟨rfl, rfl, rfl⟩

/-- C2: `checkAnswers` throws a missing-answer error (whose message is
exactly `Missing answer "<name>"!`, naming a violating question) iff some
question whose condition evaluates true is non-optional and unanswered;
and every error it throws is of that shape. In particular, for the answer
set omitting `title` while `features` contains `"adapter"`, it throws the
missing-answer error naming `title`. -/
theorem checkAnswers_missing_iff :
    ∀ answers : AnswerSet,
    ((∃ q ∈ questions, MissingViolation answers q
        ∧ checkAnswers answers = .error (.missing q.name))
      ↔ ∃ q ∈ questions, MissingViolation answers q)
    ∧ (∀ e, checkAnswers answers = .error e →
        ∃ q ∈ questions, e = .missing q.name ∧ MissingViolation answers q)
    ∧ (∀ n, renderCheckError (.missing n) = "Missing answer \"" ++ n ++ "\"!")
    ∧ checkAnswers omitTitleAnswers = .error (.missing "title") := by
  intro answers
  have herr := checkAnswersLoop_error answers questions (fun _ h => h)
  refine ⟨⟨fun ⟨q, hq, hv, _⟩ => ⟨q, hq, hv⟩, fun ⟨q, hq, hv⟩ => ?_⟩,
    herr, fun n => rfl, rfl⟩
  have hnotok : checkAnswers answers ≠ .ok () := fun hok =>
    ((checkAnswersLoop_ok_iff answers questions (fun _ h => h)).mp hok) q hq hv
  cases he : checkAnswers answers with
  | ok u => cases u; exact absurd he hnotok
  | error e =>
    obtain ⟨q', hq', hname, hv'⟩ := herr e he
    exact ⟨q', hq', hv', by rw [hname]⟩

/-- Witness for C2: applied to the concrete answer set that omits `title`
while selecting the `adapter` feature. -/
theorem checkAnswers_missing_iff_witness :
    checkAnswers omitTitleAnswers = .error (.missing "title")
    ∧ ∃ q ∈ questions, CheckError.missing "title" = .missing q.name
        ∧ MissingViolation omitTitleAnswers q :=
  ⟨(checkAnswers_missing_iff omitTitleAnswers).2.2.2,
    (checkAnswers_missing_iff omitTitleAnswers).2.1 (.missing "title") rfl⟩

/-- C6: a defined `type` answer whose active branch condition is false
never draws an extraneous-answer error, because a sibling branch named
`type` exists; more generally the extraneous-answer check is suppressed
for every name with more than one branch. -/
theorem checkAnswers_multibranch_exempt :
    (∀ answers : AnswerSet, answers "type" ≠ none →
      (∃ q ∈ questions, q.name = "type"
        ∧ testCondition q.condition answers = false) →
      checkAnswers answers ≠ .error (.extraneous "type"))
    ∧ (∀ (answers : AnswerSet) (n : String),
      1 < (questions.filter fun q => q.name == n).length →
      checkAnswers answers ≠ .error (.extraneous n)) := by
  have key : ∀ (answers : AnswerSet) (n : String),
      checkAnswers answers ≠ .error (.extraneous n) := by
    intro answers n he
    obtain ⟨q, _, hname, _⟩ :=
      checkAnswersLoop_error answers questions (fun _ h => h) _ he
    cases hname
  exact ⟨fun answers _ _ => key answers "type",
    fun answers n _ => key answers n⟩

/-- Witness for C6: the answer set holding only a `type` answer; the
adapter-feature `type` branch's condition is false against it, and the
graph has two `type` branches. -/
theorem checkAnswers_multibranch_exempt_witness :
    (typeOnlyAnswers "type" ≠ none
      ∧ checkAnswers typeOnlyAnswers ≠ .error (.extraneous "type"))
    ∧ (1 < (questions.filter fun q => q.name == "type").length
      ∧ checkAnswers typeOnlyAnswers ≠ .error (.extraneous "type")) :=
  ⟨⟨by decide,
    checkAnswers_multibranch_exempt.1 typeOnlyAnswers (by decide) (by decide)⟩,
   ⟨by decide,
    checkAnswers_multibranch_exempt.2 typeOnlyAnswers "type" (by decide)⟩⟩

/-- C3: `validateAnswers` walks the questions in declaration order,
skipping inactive questions, questions without a validator, and disabled
names; it fails with exactly the first validator-returned error string
and runs nothing after it, and returns normally when no validator fails —
i.e. it coincides with the first-error description `validateSpec`. -/
theorem validateAnswers_first_error :
    ∀ (qs : List Question) (answers : AnswerSet) (d : List String),
    validateAnswers qs answers d = validateSpec qs answers d := by
  intro qs answers d
  induction qs with
  | nil => rfl
  | cons q rest ih =>
    simp only [validateAnswers, validateSpec] at ih ⊢
    rw [validateAnswersLoop, List.findSome?_cons, questionError]
    by_cases hc : testCondition q.condition answers
    · simp only [hc, Bool.not_true, if_true, if_false]
      cases ha : q.action with
      | none => simpa using ih
      | some act =>
        by_cases hd : d.contains q.name
        · simp only [hd, if_true]
          simpa using ih
        · simp only [hd, if_false]
          cases hr : act (answers q.name) with
          | passed => simpa using ih
          | failed msg => rfl
    · simp only [hc]
      simpa using ih

theorem formatAnswersLoop_step (answers : AnswerSet) (q : Question)
    (rest : List Question) :
    formatAnswersLoop answers (q :: rest)
      = formatAnswersLoop (formatStep answers q) rest := by
  rw [formatAnswersLoop, formatStep]
  by_cases hc : testCondition q.condition answers
  · cases ha : answers q.name with
    | none => cases ht : q.resultTransform <;> simp [hc, ha, ht]
    | some v => cases ht : q.resultTransform <;> simp [hc, ha, ht]
  · simp [hc]

/-- C4: `formatAnswers` is a single left-to-right pass in declaration
order: it is the left fold of `formatStep`, whose step replaces the
answer of an active question having a defined answer and a
`resultTransform` with the transformed value — each step's condition is
evaluated against the answer set as already mutated by the earlier
steps — and the final answer set is returned. -/
theorem formatAnswers_single_pass :
    ∀ (qs : List Question) (answers : AnswerSet),
    formatAnswers qs answers = qs.foldl formatStep answers
    ∧ ∀ q, formatAnswers (q :: qs) answers
        = formatAnswers qs (formatStep answers q) := by
  intro qs
  induction qs with
  | nil => exact fun answers => ⟨rfl, fun q => formatAnswersLoop_step answers q []⟩
  | cons q rest ih =>
    intro answers
    constructor
    · show formatAnswersLoop answers (q :: rest) = _
      rw [formatAnswersLoop_step, List.foldl_cons]
      exact (ih (formatStep answers q)).1
    · intro q'
      exact formatAnswersLoop_step answers q' (q :: rest)

/-- C5: the migration callbacks infer answers from the project exactly as
claimed: `language` is `TypeScript` iff `src` has `.ts` files that are
not `.d.ts` files (else `JavaScript`); `es6class` is `yes` iff some line
of the main file starts, after spaces and tabs, with `class` (else `no`);
`connectionIndicator` is `yes` iff `ioPackageJson.instanceObjects` has an
entry with `_id = "info.connection"` (else `no`). -/
theorem migrate_callbacks_infer :
    ∀ ctx : MigrationContext,
    (languageMigrate ctx = "TypeScript"
      ↔ ctx.hasFilesWithExtension "src" ".ts" (fun f => !f.endsWith ".d.ts") = true)
    ∧ (languageMigrate ctx = "JavaScript"
      ↔ ctx.hasFilesWithExtension "src" ".ts" (fun f => !f.endsWith ".d.ts") = false)
    ∧ (es6classMigrate ctx = "yes"
      ↔ ∃ line ∈ ctx.getMainFileContent.splitOn "\n",
          ((line.dropWhile fun c => c == ' ' || c == '\t').startsWith "class") = true)
    ∧ (es6classMigrate ctx = "no"
      ↔ ¬∃ line ∈ ctx.getMainFileContent.splitOn "\n",
          ((line.dropWhile fun c => c == ' ' || c == '\t').startsWith "class") = true)
    ∧ (connectionIndicatorMigrate ctx = "yes"
      ↔ ∃ o ∈ ctx.ioPackageJson.instanceObjects.getD [],
          o._id = "info.connection")
    ∧ (connectionIndicatorMigrate ctx = "no"
      ↔ ¬∃ o ∈ ctx.ioPackageJson.instanceObjects.getD [],
          o._id = "info.connection") := by
  intro ctx
  have hclass : hasClassLine ctx.getMainFileContent = true ↔
      ∃ line ∈ ctx.getMainFileContent.splitOn "\n",
        ((line.dropWhile fun c => c == ' ' || c == '\t').startsWith "class")
          = true := by
    simp [hasClassLine]
  have hconn : ((ctx.ioPackageJson.instanceObjects.getD []).any
      (fun o => o._id == "info.connection") = true) ↔
      ∃ o ∈ ctx.ioPackageJson.instanceObjects.getD [],
        o._id = "info.connection" := by
    simp
  refine ⟨?_, ?_, ?_, ?_, ?_, ?_⟩
  · cases hb : ctx.hasFilesWithExtension "src" ".ts" (fun f => !f.endsWith ".d.ts")
      <;> simp [languageMigrate, hb]
  · cases hb : ctx.hasFilesWithExtension "src" ".ts" (fun f => !f.endsWith ".d.ts")
      <;> simp [languageMigrate, hb]
  · rw [← hclass]
    cases hb : hasClassLine ctx.getMainFileContent
      <;> simp [es6classMigrate, hb]
  · rw [← hclass]
    cases hb : hasClassLine ctx.getMainFileContent
      <;> simp [es6classMigrate, hb]
  · rw [← hconn]
    cases hb : (ctx.ioPackageJson.instanceObjects.getD []).any
        (fun o => o._id == "info.connection")
      <;> simp [connectionIndicatorMigrate, hb]
  · rw [← hconn]
    cases hb : (ctx.ioPackageJson.instanceObjects.getD []).any
        (fun o => o._id == "info.connection")
      <;> simp [connectionIndicatorMigrate, hb]

/-- C8: condition evaluation is total (the evaluator is a total function
by construction) and treats a missing referenced answer as failing
`value` and `contains` conditions and passing `doesNotContain`; a list of
conditions evaluates as the conjunction of its elements and an absent
condition evaluates true. -/
theorem condition_evaluation_total :
    ∀ (answers : AnswerSet) (n : String) (p : ValuePayload) (x y : AnswerValue)
      (cs : List Condition),
    (answers n = none →
      evalCondition (.value n p) answers = false
      ∧ evalCondition (.contains n x) answers = false
      ∧ evalCondition (.doesNotContain n y) answers = true)
    ∧ testCondition (some (.many cs)) answers
        = cs.all (fun c => evalCondition c answers)
    ∧ testCondition none answers = true := by
  intro answers n p x y cs
  exact ⟨fun h => by simp [evalCondition, h], rfl, rfl⟩

/-- Witness for C8: the missing-name behaviour at the empty answer set. -/
theorem condition_evaluation_total_witness :
    emptyAnswers "language" = none
    ∧ (evalCondition (.value "language" (.one (.str "JavaScript"))) emptyAnswers
        = false
      ∧ evalCondition (.contains "language" (.str "x")) emptyAnswers = false
      ∧ evalCondition (.doesNotContain "language" (.str "x")) emptyAnswers
        = true) :=
  ⟨rfl, (condition_evaluation_total emptyAnswers "language"
    (.one (.str "JavaScript")) (.str "x") (.str "x") []).1 rfl⟩

theorem checkAnswersLoopS_eq (answers : AnswerSet) :
    ∀ qs : List Question,
    checkAnswersLoopS answers qs = (checkAnswersLoop answers qs, answers) := by
  intro qs
  induction qs with
  | nil => rfl
  | cons q rest ih =>
    rw [checkAnswersLoopS, checkAnswersLoop]
    split
    · rfl
    · split
      · split
        · exact ih
        · rfl
      · exact ih

theorem validateAnswersLoopS_eq (answers : AnswerSet) (d : List String) :
    ∀ qs : List Question,
    validateAnswersLoopS answers d qs = (validateAnswersLoop answers d qs, answers) := by
  intro qs
  induction qs with
  | nil => rfl
  | cons q rest ih =>
    rw [validateAnswersLoopS, validateAnswersLoop]
    split
    · exact ih
    · split
      · exact ih
      · split
        · exact ih
        · split
          · rfl
          · exact ih

/-- C9: `checkAnswers` and `validateAnswers` never modify the answer
set: their state-threaded renditions return the input answer set
unchanged (so every name maps to the same value before and after the
call) together with the very outcome of the read-only versions, whether
that outcome is a success or an error. -/
theorem check_validate_no_mutation :
    ∀ answers : AnswerSet,
    checkAnswersS answers = (checkAnswers answers, answers)
    ∧ ∀ (qs : List Question) (d : List String),
      validateAnswersS qs answers d = (validateAnswers qs answers d, answers) := by
  intro answers
  exact ⟨checkAnswersLoopS_eq answers questions,
    fun qs d => validateAnswersLoopS_eq answers d qs⟩

/-- C10: `getDefaultAnswer` is defined for exactly two keys:
`adapterSettings` yields the fixed two-element list (checkbox `option1`
defaulting to `true`, text `option2` defaulting to `"42"`), `keywords`
yields the fixed keyword list, and every other key yields `undefined`. -/
theorem getDefaultAnswer_exactly_two :
    getDefaultAnswer "adapterSettings" = some (.settings [
      { key := "option1", defaultValue := some (.boolean true),
        inputType := .checkbox },
      { key := "option2", defaultValue := some (.str "42"),
        inputType := .text }])
    ∧ getDefaultAnswer "keywords"
        = some (.strList ["ioBroker", "template", "Smart Home",
            "home automation"])
    ∧ ∀ key : String, key = "adapterSettings" ∨ key = "keywords"
        ∨ getDefaultAnswer key = none := by
  refine ⟨rfl, rfl, fun key => ?_⟩
  by_cases h1 : key = "adapterSettings"
  · exact Or.inl h1
  · by_cases h2 : key = "keywords"
    · exact Or.inr (Or.inl h2)
    · exact Or.inr (Or.inr (by simp [getDefaultAnswer, h1, h2]))
